import Mathlib

/-!
Shallow embedding of the job-control shell in `src/main.cpp`
(`OS_lab2_Terminal`).

The program is a single-threaded read-eval loop.  We embed the parent
process's view of each handler as a pure function over an explicit
`ShellState`; the operating system (fork outcomes, filesystem queries)
is an oracle record `Sys` passed to every function that needs it.

Modelling conventions:
* `pids` (`std::unordered_set<int>`) is a `Finset ℤ`; iteration order is
  irrelevant to every property proved here.
* every `fork()` call consumes one index of the oracle `Sys.fork`;
  `none` models a failed fork (`pid < 0`), `some pid` a success.  The
  state field `forkCount` counts fork calls, so "no process was
  launched" is expressed as `forkCount` being unchanged.
* `launches` is a trace of the token vector and priority of every
  `createProcess` invocation, and `signals` the multiset of pids that
  were sent `SIGKILL` (a multiset because `unordered_set` iteration
  order is unspecified); both are observation instrumentation, they do
  not influence control flow.
* `std::stoi` throwing an uncaught exception (and, generally, undefined
  behaviour such as an out-of-bounds `tokens[0]`) is modelled by an
  `Option` result being `none`: the read-eval loop does not continue.
* console output (`eraseLine`, banners, colours) has no effect on the
  modelled state and is omitted.
-/

namespace Terminal

/-- `enum class CommandError` of `src/main.cpp` lines 15-26. -/
inductive CommandError
  | OK
  | INVALID_ARGUMENT_NUMBER
  | INVALID_ARGUMENT
  | UNKNOWN_COMMAND
  | INVALID_FILE_PATH
  | UNABLE_TO_OPEN_NOTEPAD
  | FORK_ERROR
  | INVALID_PROCESS_INPUT
  | INVALID_PID
  deriving DecidableEq, Repr

/-- Operating-system oracle: outcome of the n-th `fork()` call of the
run (`none` = failure), and the two filesystem queries used by `cat`. -/
structure Sys where
  fork : ℕ → Option ℤ
  isRegularFile : String → Bool
  canOpen : String → Bool

/-- Mutable state of the shell process: the job table `pids`
(`std::unordered_set<int> pids`, line 55), the number of `fork()` calls
made so far, and the observation traces described in the header. -/
structure ShellState where
  pids : Finset ℤ
  forkCount : ℕ
  launches : List (List String × ℤ)
  signals : Multiset ℤ
  deriving DecidableEq

/-- The state at program start: empty job table, nothing launched. -/
def initState : ShellState := ⟨∅, 0, [], 0⟩

/-- Characters accepted by C `isspace`, which `std::stoi` skips. -/
def isSpaceC (c : Char) : Bool :=
  c = ' ' || c = '\t' || c = '\n' || c = '\x0b' || c = '\x0c' || c = '\r'

/-- `std::stoi` (used at lines 108 and 134): skip leading whitespace,
optional sign, then a non-empty run of decimal digits; `none` models the
`std::invalid_argument` exception thrown when no digits are found.  The
model is unbounded (`ℤ`), so the `std::out_of_range` case is not
represented; no claim depends on it. -/
def stoi (str : String) : Option ℤ :=
  let cs := str.toList.dropWhile isSpaceC
  let signed : ℤ × List Char :=
    match cs with
    | '-' :: r => (-1, r)
    | '+' :: r => (1, r)
    | _ => (1, cs)
  let ds := signed.2.takeWhile Char.isDigit
  if ds = [] then none
  else some (signed.1 * (ds.foldl (fun acc c => acc * 10 + (c.toNat - 48 : ℤ)) 0))

/-- Loop body of `splitStringBySpace` (lines 78-86): `std::getline`
with delimiter `' '` reads characters into `acc` until a space or end
of input; after consuming a delimiter the next `getline` fails (ending
the loop) exactly when the stream is already at end of input. -/
def sssAux : List Char → List Char → List String
  | [], acc => [String.mk acc]
  | c :: r, acc =>
    if c = ' ' then
      match r with
      | [] => [String.mk acc]
      | _ :: _ => String.mk acc :: sssAux r []
    else sssAux r (acc ++ [c])

/-- `splitStringBySpace` (lines 78-86).  On the empty string the first
`std::getline` fails immediately, producing no tokens. -/
def splitStringBySpace (inputString : String) : List String :=
  if inputString.toList = [] then [] else sssAux inputString.toList []

/-- `tokensToArgv` (lines 258-263): the argument vector handed to
`execvp` is the tokens followed by a terminating `nullptr` (`none`).
For an empty token list, position 0 of the vector is already the null
pointer. -/
def tokensToArgv (tokens : List String) : List (Option String) :=
  tokens.map some ++ [none]

/-- `createProcess` (lines 235-256), parent-process view: one `fork()`
is consumed; on failure (`pid < 0`) return `FORK_ERROR`; on success the
child's pid is inserted into the job table, `setpriority` is applied
best-effort (no modelled effect), and `OK` is returned.  The child's
`execvp` branch never returns control to the parent, so
`INVALID_PROCESS_INPUT` is unreachable in this view.  The invocation is
recorded on the `launches` trace. -/
def createProcess (sys : Sys) (tokens : List String) (priority : ℤ)
    (s : ShellState) : CommandError × ShellState :=
  let s1 : ShellState :=
    { s with launches := s.launches ++ [(tokens, priority)],
             forkCount := s.forkCount + 1 }
  match sys.fork s.forkCount with
  | none => (CommandError.FORK_ERROR, s1)
  | some pid => (CommandError.OK, { s1 with pids := insert pid s1.pids })

/-- Loop of `createProcesses` (lines 215-233): `currentTokens` is the
accumulator; on the literal token `"&&"` the accumulated group is
launched and the accumulator cleared; a non-`OK` launch outcome is
returned immediately; after the loop the remaining group is launched. -/
def createProcessesGo (sys : Sys) :
    List String → List String → ShellState → CommandError × ShellState
  | [], current, s => createProcess sys current 0 s
  | arg :: rest, current, s =>
    if arg = "&&" then
      let r := createProcess sys current 0 s
      if r.1 ≠ CommandError.OK then r else createProcessesGo sys rest [] r.2
    else createProcessesGo sys rest (current ++ [arg]) s

/-- `createProcesses` (lines 215-233). -/
def createProcesses (sys : Sys) (tokens : List String) (s : ShellState) :
    CommandError × ShellState :=
  createProcessesGo sys tokens [] s

/-- `killCommand` (lines 104-116).  `none` models the uncaught
`std::stoi` exception on a malformed integer argument. -/
def killCommand (s : ShellState) (arguments : List String) :
    Option (CommandError × ShellState) :=
  match arguments with
  | [a] =>
    match stoi a with
    | none => none
    | some pid =>
      if pid ∈ s.pids then
        some (CommandError.OK,
          { s with signals := s.signals + {pid}, pids := s.pids.erase pid })
      else some (CommandError.INVALID_PID, s)
  | _ => some (CommandError.INVALID_ARGUMENT_NUMBER, s)

/-- `killAllCommand` (lines 118-128): with zero arguments, `SIGKILL`
every tracked pid and clear the table. -/
def killAllCommand (s : ShellState) (arguments : List String) :
    CommandError × ShellState :=
  match arguments with
  | [] => (CommandError.OK,
      { s with signals := s.signals + s.pids.val, pids := ∅ })
  | _ => (CommandError.INVALID_ARGUMENT_NUMBER, s)

/-- `niceCommand` (lines 130-138): exactly two arguments required; the
second argument alone becomes the launched program; the return value of
`createProcess` is discarded and `OK` is returned unconditionally.
`none` models the uncaught `std::stoi` exception. -/
def niceCommand (sys : Sys) (s : ShellState) (arguments : List String) :
    Option (CommandError × ShellState) :=
  match arguments with
  | [a, b] =>
    match stoi a with
    | none => none
    | some prio =>
      let r := createProcess sys [b] prio s
      some (CommandError.OK, r.2)
  | _ => some (CommandError.INVALID_ARGUMENT_NUMBER, s)

/-- `showPids` (lines 140-151): printing only, no state change. -/
def showPids (s : ShellState) (arguments : List String) :
    CommandError × ShellState :=
  match arguments with
  | [] => (CommandError.OK, s)
  | _ => (CommandError.INVALID_ARGUMENT_NUMBER, s)

/-- `listDirContent` (lines 153-164): printing only, no state change. -/
def listDirContent (s : ShellState) (arguments : List String) :
    CommandError × ShellState :=
  match arguments with
  | [] => (CommandError.OK, s)
  | _ => (CommandError.INVALID_ARGUMENT_NUMBER, s)

/-- `printFileContents` (lines 179-194): `INVALID_FILE_PATH` when the
path is not a regular file or the stream fails to open. -/
def printFileContents (sys : Sys) (s : ShellState) (arguments : List String) :
    CommandError × ShellState :=
  match arguments with
  | [a] =>
    if ¬ sys.isRegularFile a then (CommandError.INVALID_FILE_PATH, s)
    else if ¬ sys.canOpen a then (CommandError.INVALID_FILE_PATH, s)
    else (CommandError.OK, s)
  | _ => (CommandError.INVALID_ARGUMENT_NUMBER, s)

/-- `openNotepad` (lines 196-213), parent-process view: the arguments
are never inspected (there is no arity check in the source); one
`fork()` is consumed; failure yields `UNABLE_TO_OPEN_NOTEPAD`, success
inserts the child pid into the job table and returns `OK`. -/
def openNotepad (sys : Sys) (s : ShellState) (_arguments : List String) :
    CommandError × ShellState :=
  match sys.fork s.forkCount with
  | none => (CommandError.UNABLE_TO_OPEN_NOTEPAD,
      { s with forkCount := s.forkCount + 1 })
  | some pid => (CommandError.OK,
      { s with forkCount := s.forkCount + 1, pids := insert pid s.pids })

/-- `executeCommand` (lines 88-102): look the first token up in
`terminalCommands` (lines 47-54) and apply the handler to the remaining
tokens; a lookup miss is `UNKNOWN_COMMAND`.  `tokens[0]` on an empty
vector is undefined behaviour in the source, modelled as `none`. -/
def executeCommand (sys : Sys) (s : ShellState) (tokens : List String) :
    Option (CommandError × ShellState) :=
  match tokens with
  | [] => none
  | command :: arguments =>
    if command = "ls" then some (listDirContent s arguments)
    else if command = "cat" then some (printFileContents sys s arguments)
    else if command = "notepad" then some (openNotepad sys s arguments)
    else if command = "kill" then killCommand s arguments
    else if command = "killall" then some (killAllCommand s arguments)
    else if command = "pids" then some (showPids s arguments)
    else if command = "nice" then niceCommand sys s arguments
    else some (CommandError.UNKNOWN_COMMAND, s)

/-- Spec-side description (§4.3 of the spec, "Multi-launch
orchestration"): partition the token stream into the groups separated
by the literal conjunction token `"&&"`; leading, trailing and
consecutive separators yield empty groups. -/
def splitGroups : List String → List (List String)
  | [] => [[]]
  | arg :: rest =>
    if arg = "&&" then [] :: splitGroups rest
    else
      match splitGroups rest with
      | [] => [[arg]]
      | g :: gs => (arg :: g) :: gs

/-- Spec-side description: launch the groups as independent requests in
left-to-right order; if a launch fails, stop immediately and return
that failure. -/
def launchGroups (sys : Sys) : List (List String) → ShellState → CommandError × ShellState
  | [], s => (CommandError.OK, s)
  | g :: gs, s =>
    let r := createProcess sys g 0 s
    if r.1 = CommandError.OK then launchGroups sys gs r.2 else r

/-- Prefix the first group of a partition with the tokens accumulated
so far (the `currentTokens` of the `createProcesses` loop). -/
def prependGroup (current : List String) : List (List String) → List (List String)
  | [] => [current]
  | g :: gs => (current ++ g) :: gs

/-- Outcome of one iteration of the read-eval loop: either the empty
input line was skipped, or a command was dispatched with the given
final outcome. -/
inductive LineResult
  | skipped
  | executed (e : CommandError)
  deriving DecidableEq, Repr

/-- One iteration of the `main` loop (lines 62-75): an empty input line
is skipped before tokenization; otherwise the tokens are dispatched,
and `UNKNOWN_COMMAND` falls through to `createProcesses`.  Printing the
error message does not change the modelled state. -/
def processLine (sys : Sys) (s : ShellState) (line : String) :
    Option (LineResult × ShellState) :=
  if line = "" then some (LineResult.skipped, s)
  else
    match executeCommand sys s (splitStringBySpace line) with
    | none => none
    | some (e, s1) =>
      if e = CommandError.UNKNOWN_COMMAND then
        let r := createProcesses sys (splitStringBySpace line) s1
        some (LineResult.executed r.1, r.2)
      else some (LineResult.executed e, s1)

/-- Concrete oracle for witnesses: every fork succeeds, the n-th
returning pid `n`; no file exists. -/
def sysOk : Sys := ⟨fun n => some (n : ℤ), fun _ => false, fun _ => false⟩

/-- Concrete oracle for witnesses: every fork fails. -/
def sysFail : Sys := ⟨fun _ => none, fun _ => false, fun _ => false⟩

/-! ## Helper lemmas -/

theorem splitGroups_ne_nil : ∀ l : List String, splitGroups l ≠ [] := by
  intro l
  cases l with
  | nil => simp [splitGroups]
  | cons a r =>
    simp only [splitGroups]
    by_cases h : a = "&&"
    · simp [h]
    · simp only [h, if_false]
      cases splitGroups r <;> simp

theorem prependGroup_nil {l : List (List String)} (h : l ≠ []) :
    prependGroup [] l = l := by
  cases l with
  | nil => exact absurd rfl h
  | cons g gs => simp [prependGroup]

theorem createProcessesGo_eq (sys : Sys) :
    ∀ (rest current : List String) (s : ShellState),
      createProcessesGo sys rest current s =
        launchGroups sys (prependGroup current (splitGroups rest)) s := by
  intro rest
  induction rest with
  | nil =>
    intro current s
    simp only [createProcessesGo, splitGroups, prependGroup, List.append_nil,
      launchGroups]
    by_cases h : (createProcess sys current 0 s).1 = CommandError.OK
    · simp only [h, if_true, launchGroups]
      exact Prod.ext h rfl
    · simp [h]
  | cons arg rest ih =>
    intro current s
    by_cases h : arg = "&&"
    · subst h
      simp only [createProcessesGo, if_pos rfl, splitGroups, prependGroup,
        List.append_nil, launchGroups]
      rw [ih [] (createProcess sys current 0 s).2,
        prependGroup_nil (splitGroups_ne_nil rest)]
      by_cases hr : (createProcess sys current 0 s).1 = CommandError.OK
      · simp [hr]
      · simp [hr]
    · obtain ⟨g, gs, hgs⟩ := List.exists_cons_of_ne_nil (splitGroups_ne_nil rest)
      simp only [createProcessesGo, if_neg h, splitGroups, hgs]
      rw [ih (current ++ [arg]) s, hgs]
      simp [prependGroup, List.append_assoc]

theorem createProcesses_eq (sys : Sys) (tokens : List String) (s : ShellState) :
    createProcesses sys tokens s = launchGroups sys (splitGroups tokens) s := by
  rw [createProcesses, createProcessesGo_eq,
    prependGroup_nil (splitGroups_ne_nil tokens)]

theorem splitGroups_cons_sep (rest : List String) :
    splitGroups ("&&" :: rest) = [] :: splitGroups rest := by
  simp [splitGroups]

theorem splitGroups_cons_no_sep (x : String) (rest : List String) (hx : x ≠ "&&")
    {g : List String} {gs : List (List String)} (hgs : splitGroups rest = g :: gs) :
    splitGroups (x :: rest) = (x :: g) :: gs := by
  simp only [splitGroups, if_neg hx, hgs]

theorem splitGroups_no_sep :
    ∀ (a rest : List String), "&&" ∉ a →
      splitGroups (a ++ "&&" :: rest) = a :: splitGroups rest := by
  intro a
  induction a with
  | nil => intro rest _; simpa using splitGroups_cons_sep rest
  | cons x a ih =>
    intro rest hmem
    have hx : x ≠ "&&" := fun hx => hmem (hx ▸ List.mem_cons_self x a)
    have ha : "&&" ∉ a := fun hmem2 => hmem (List.mem_cons_of_mem x hmem2)
    rw [List.cons_append, splitGroups_cons_no_sep x _ hx (ih rest ha)]

theorem nil_mem_splitGroups_tail :
    ∀ (a rest : List String), [] ∈ splitGroups rest →
      [] ∈ (splitGroups (a ++ "&&" :: rest)).tail := by
  intro a
  induction a with
  | nil => intro rest h; simpa [splitGroups_cons_sep] using h
  | cons x a ih =>
    intro rest h
    obtain ⟨g, gs, hgs⟩ :=
      List.exists_cons_of_ne_nil (splitGroups_ne_nil (a ++ "&&" :: rest))
    by_cases hx : x = "&&"
    · subst hx
      rw [List.cons_append, splitGroups_cons_sep, List.tail_cons]
      have htl := ih rest h
      rw [hgs] at htl ⊢
      exact List.mem_cons_of_mem g (by simpa using htl)
    · rw [List.cons_append, splitGroups_cons_no_sep x _ hx hgs, List.tail_cons]
      have htl := ih rest h
      rw [hgs] at htl
      simpa using htl

theorem launchGroups_launches (sys : Sys) (hfork : ∀ n, (sys.fork n).isSome) :
    ∀ (gs : List (List String)) (s : ShellState),
      (launchGroups sys gs s).2.launches =
        s.launches ++ gs.map (fun g => (g, (0 : ℤ))) := by
  intro gs
  induction gs with
  | nil => intro s; simp [launchGroups]
  | cons g gs ih =>
    intro s
    obtain ⟨pid, hpid⟩ := Option.isSome_iff_exists.mp (hfork s.forkCount)
    have hcp : createProcess sys g 0 s =
        (CommandError.OK,
          { s with pids := insert pid s.pids, forkCount := s.forkCount + 1,
                   launches := s.launches ++ [(g, 0)] }) := by
      simp [createProcess, hpid]
    simp only [launchGroups, hcp]
    simp [ih]

theorem toList_mk (cs : List Char) : (String.mk cs).toList = cs := rfl

theorem sssAux_ne_nil : ∀ (cs acc : List Char), sssAux cs acc ≠ [] := by
  intro cs
  induction cs with
  | nil => intro acc; simp [sssAux]
  | cons c r ih =>
    intro acc
    by_cases hc : c = ' '
    · cases r <;> simp [sssAux, hc]
    · simpa [sssAux, hc] using ih (acc ++ [c])

theorem sssAux_no_space :
    ∀ (pre rest acc : List Char), (∀ c ∈ pre, c ≠ ' ') →
      sssAux (pre ++ rest) acc = sssAux rest (acc ++ pre) := by
  intro pre
  induction pre with
  | nil => intro rest acc _; simp
  | cons c p ih =>
    intro rest acc hc
    have hcs : c ≠ ' ' := hc c (List.mem_cons_self c p)
    have hps : ∀ x ∈ p, x ≠ ' ' := fun x hx => hc x (List.mem_cons_of_mem c hx)
    rw [List.cons_append]
    show sssAux (c :: (p ++ rest)) acc = sssAux rest (acc ++ c :: p)
    simp only [sssAux, if_neg hcs]
    rw [ih rest (acc ++ [c]) hps]
    simp

theorem sssAux_cons_space (post acc : List Char) (h : post ≠ []) :
    sssAux (' ' :: post) acc = String.mk acc :: sssAux post [] := by
  cases post with
  | nil => exact absurd rfl h
  | cons c r => simp [sssAux]

theorem splitStringBySpace_mk (cs : List Char) (h : cs ≠ []) :
    splitStringBySpace (String.mk cs) = sssAux cs [] := by
  simp [splitStringBySpace, toList_mk, h]

/-! ## Claims -/

/-- C1 counterexample: the claim fails for `notepad`, which has no
arity check: invoked with one argument (declared arity 0) it returns
`OK`, not `INVALID_ARGUMENT_NUMBER`, and it launches a process (the
fork counter moves from 0 to 1). -/
theorem notepad_skips_arity_check :
    (openNotepad sysOk initState ["x"]).1 = CommandError.OK ∧
    (openNotepad sysOk initState ["x"]).1 ≠ CommandError.INVALID_ARGUMENT_NUMBER ∧
    (openNotepad sysOk initState ["x"]).2.forkCount = 1 := by
  refine ⟨rfl, by decide, rfl⟩

/-- C1 (amended): every built-in except `notepad` — ls, cat, kill,
killall, pids, nice — invoked with an argument count different from its
declared arity returns `INVALID_ARGUMENT_NUMBER` and leaves the state
(job table, fork count, launch and signal traces) unchanged; `notepad`
never inspects its arguments, so it behaves identically for every
argument count (in particular it still forks). -/
theorem builtin_arity_errors (sys : Sys) (s : ShellState) (args : List String) :
    (args.length ≠ 0 →
      listDirContent s args = (CommandError.INVALID_ARGUMENT_NUMBER, s)) ∧
    (args.length ≠ 1 →
      printFileContents sys s args = (CommandError.INVALID_ARGUMENT_NUMBER, s)) ∧
    (args.length ≠ 1 →
      killCommand s args = some (CommandError.INVALID_ARGUMENT_NUMBER, s)) ∧
    (args.length ≠ 0 →
      killAllCommand s args = (CommandError.INVALID_ARGUMENT_NUMBER, s)) ∧
    (args.length ≠ 0 →
      showPids s args = (CommandError.INVALID_ARGUMENT_NUMBER, s)) ∧
    (args.length ≠ 2 →
      niceCommand sys s args = some (CommandError.INVALID_ARGUMENT_NUMBER, s)) ∧
    openNotepad sys s args = openNotepad sys s [] := by
  refine ⟨?_, ?_, ?_, ?_, ?_, ?_, rfl⟩ <;> intro h
  · match args with
    | [] => exact absurd rfl h
    | _ :: _ => rfl
  · match args with
    | [] => rfl
    | [a] => exact absurd rfl h
    | _ :: _ :: _ => rfl
  · match args with
    | [] => rfl
    | [a] => exact absurd rfl h
    | _ :: _ :: _ => rfl
  · match args with
    | [] => exact absurd rfl h
    | _ :: _ => rfl
  · match args with
    | [] => exact absurd rfl h
    | _ :: _ => rfl
  · match args with
    | [] => rfl
    | [a] => rfl
    | [a, b] => exact absurd rfl h
    | _ :: _ :: _ :: _ => rfl

/-- C1 witness: concrete wrong-arity invocations of ls, kill and nice. -/
theorem builtin_arity_errors_witness :
    listDirContent initState ["x"] = (CommandError.INVALID_ARGUMENT_NUMBER, initState) ∧
    killCommand initState [] = some (CommandError.INVALID_ARGUMENT_NUMBER, initState) ∧
    niceCommand sysOk initState ["1"] = some (CommandError.INVALID_ARGUMENT_NUMBER, initState) :=
  ⟨(builtin_arity_errors sysOk initState ["x"]).1 (by decide),
   (builtin_arity_errors sysOk initState []).2.2.1 (by decide),
   (builtin_arity_errors sysOk initState ["1"]).2.2.2.2.2.1 (by decide)⟩

/-- C2 counterexample: with a fork oracle that fails, the launch that
`nice 5 prog` performs returns `FORK_ERROR`, yet `niceCommand` reports
`OK` to its caller — the Launcher error is not propagated. -/
theorem nice_swallows_launcher_error :
    (createProcess sysFail ["prog"] 5 initState).1 = CommandError.FORK_ERROR ∧
    (niceCommand sysFail initState ["5", "prog"]).map Prod.fst =
      some CommandError.OK := by
  refine ⟨rfl, by decide⟩

/-- C2 (amended): `nice` with a valid integer priority and a command
name performs the launch but discards the Launcher's outcome entirely,
returning `OK` even when the launch reported a failure; only the
Launcher's state change survives. -/
theorem nice_returns_ok_after_launch (sys : Sys) (s : ShellState) (a b : String)
    (prio : ℤ) (h : stoi a = some prio) :
    niceCommand sys s [a, b] =
      some (CommandError.OK, (createProcess sys [b] prio s).2) := by
  simp [niceCommand, h]

/-- C2 witness: `nice 5 prog` under the failing fork oracle. -/
theorem nice_returns_ok_after_launch_witness :
    niceCommand sysFail initState ["5", "prog"] =
      some (CommandError.OK, (createProcess sysFail ["prog"] 5 initState).2) :=
  nice_returns_ok_after_launch sysFail initState "5" "prog" 5 (by decide)

/-- C3 counterexample: `nice 1 a b` has three arguments — at least 2,
with an integer first argument — yet the handler rejects it with
`INVALID_ARGUMENT_NUMBER` instead of passing the arity check. -/
theorem nice_three_args_rejected :
    stoi "1" = some 1 ∧
    (["1", "a", "b"] : List String).length ≥ 2 ∧
    niceCommand sysOk initState ["1", "a", "b"] =
      some (CommandError.INVALID_ARGUMENT_NUMBER, initState) := by
  refine ⟨by decide, by decide, rfl⟩

/-- C3 (amended): `niceCommand` returns `INVALID_ARGUMENT_NUMBER`
exactly when its argument count differs from 2 (the source requires
exactly two arguments, not "2 or more"); with exactly two arguments
whose first parses as an integer it proceeds to launch, recording the
launch request. -/
theorem nice_arity_iff (sys : Sys) (s : ShellState) (args : List String) :
    ((niceCommand sys s args).map Prod.fst =
        some CommandError.INVALID_ARGUMENT_NUMBER ↔ args.length ≠ 2) ∧
    (∀ (a b : String) (prio : ℤ), args = [a, b] → stoi a = some prio →
      (niceCommand sys s args).map (fun r => r.2.launches) =
        some (s.launches ++ [([b], prio)])) := by
  constructor
  · match args with
    | [] => simp [niceCommand]
    | [a] => simp [niceCommand]
    | [a, b] =>
      cases h : stoi a <;> simp [niceCommand, h]
    | a :: b :: c :: t => simp [niceCommand]
  · intro a b prio heq hstoi
    subst heq
    cases hf : sys.fork s.forkCount <;>
      simp [niceCommand, hstoi, createProcess, hf]

/-- C3 witness: `nice 3 prog` (exactly two arguments) launches. -/
theorem nice_arity_iff_witness :
    (niceCommand sysOk initState ["3", "prog"]).map (fun r => r.2.launches) =
      some (initState.launches ++ [(["prog"], 3)]) :=
  (nice_arity_iff sysOk initState ["3", "prog"]).2 "3" "prog" 3 rfl (by decide)

/-- C4: the fallthrough orchestrator `createProcesses` is exactly:
partition the token stream into the groups separated by the literal
token `"&&"` and launch them strictly left-to-right, stopping at (and
returning) the first failing launch.  In particular, when the group
before a `"&&"` fails to launch, the entire result — outcome and state,
hence also the launch trace — is that of the single failed launch, so
no subsequent group is launched. -/
theorem createProcesses_partitions (sys : Sys) (s : ShellState) (tokens : List String) :
    createProcesses sys tokens s = launchGroups sys (splitGroups tokens) s ∧
    (∀ (a rest : List String), "&&" ∉ a →
      (createProcess sys a 0 s).1 ≠ CommandError.OK →
      createProcesses sys (a ++ "&&" :: rest) s = createProcess sys a 0 s) := by
  refine ⟨createProcesses_eq sys tokens s, ?_⟩
  intro a rest ha hfail
  rw [createProcesses_eq, splitGroups_no_sep a rest ha]
  simp only [launchGroups, if_neg hfail]

/-- C4 witness: `a && b` with a failing fork launches only `a`. -/
theorem createProcesses_partitions_witness :
    createProcesses sysFail (["a"] ++ "&&" :: ["b"]) initState =
      createProcess sysFail ["a"] 0 initState :=
  (createProcesses_partitions sysFail initState []).2 ["a"] ["b"]
    (by decide) (by decide)

/-- C5: `kill <pid>` where the argument parses as an integer that is
not in the job table returns `INVALID_PID` and leaves the state — job
table, fork count, launch and signal traces — unchanged. -/
theorem kill_unknown_pid (s : ShellState) (a : String) (pid : ℤ)
    (hparse : stoi a = some pid) (hmem : pid ∉ s.pids) :
    killCommand s [a] = some (CommandError.INVALID_PID, s) := by
  simp [killCommand, hparse, hmem]

/-- C5 witness: `kill 999999` on the fresh (empty) job table. -/
theorem kill_unknown_pid_witness :
    killCommand initState ["999999"] = some (CommandError.INVALID_PID, initState) :=
  kill_unknown_pid initState "999999" 999999 (by decide) (by decide)

/-- C6 counterexample: `kill abc` — non-integer text where an integer
is required — does not yield `INVALID_ARGUMENT`: the uncaught
`std::stoi` exception terminates the process (modelled as the absence
of any outcome), so the read-eval loop does not continue. -/
theorem malformed_int_crashes :
    processLine sysOk initState "kill abc" = none ∧
    killCommand initState ["abc"] ≠
      some (CommandError.INVALID_ARGUMENT, initState) := by
  refine ⟨by decide, by decide⟩

/-- C6 (amended): non-integer text in the integer position of `kill` or
`nice` is never mapped to `INVALID_ARGUMENT`; instead the uncaught
`std::stoi` exception ends the run (no outcome at all), and no
reachable outcome of either handler is `INVALID_ARGUMENT`. -/
theorem malformed_int_no_outcome (sys : Sys) (s : ShellState) (a b : String)
    (h : stoi a = none) :
    killCommand s [a] = none ∧
    niceCommand sys s [a, b] = none ∧
    (∀ (args : List String) (r : CommandError × ShellState),
      killCommand s args = some r → r.1 ≠ CommandError.INVALID_ARGUMENT) ∧
    (∀ (args : List String) (r : CommandError × ShellState),
      niceCommand sys s args = some r → r.1 ≠ CommandError.INVALID_ARGUMENT) := by
  refine ⟨by simp [killCommand, h], by simp [niceCommand, h], ?_, ?_⟩
  · intro args r hr
    match args with
    | [] =>
      obtain rfl := Option.some_inj.mp hr
      simp
    | [x] =>
      simp only [killCommand] at hr
      cases hx : stoi x with
      | none => rw [hx] at hr; exact Option.noConfusion hr
      | some pid =>
        simp only [hx] at hr
        by_cases hmem : pid ∈ s.pids
        · rw [if_pos hmem] at hr
          obtain rfl := Option.some_inj.mp hr
          simp
        · rw [if_neg hmem] at hr
          obtain rfl := Option.some_inj.mp hr
          simp
    | _ :: _ :: _ =>
      obtain rfl := Option.some_inj.mp hr
      simp
  · intro args r hr
    match args with
    | [] =>
      obtain rfl := Option.some_inj.mp hr
      simp
    | [x] =>
      obtain rfl := Option.some_inj.mp hr
      simp
    | [x, y] =>
      simp only [niceCommand] at hr
      cases hx : stoi x with
      | none => rw [hx] at hr; exact Option.noConfusion hr
      | some prio =>
        simp only [hx] at hr
        obtain rfl := Option.some_inj.mp hr
        simp
    | _ :: _ :: _ :: _ =>
      obtain rfl := Option.some_inj.mp hr
      simp

/-- C6 witness: `kill abc` and `nice abc x` both crash (no outcome). -/
theorem malformed_int_no_outcome_witness :
    killCommand initState ["abc"] = none ∧
    niceCommand sysOk initState ["abc", "x"] = none :=
  ⟨(malformed_int_no_outcome sysOk initState "abc" "x" (by decide)).1,
   (malformed_int_no_outcome sysOk initState "abc" "x" (by decide)).2.1⟩

/-- C7: `killall` with zero arguments returns `OK` for every prior
state, including the empty table, and leaves the job table empty; every
previously tracked pid receives the termination signal. -/
theorem killall_empties_table (s : ShellState) :
    (killAllCommand s []).1 = CommandError.OK ∧
    (killAllCommand s []).2.pids = ∅ ∧
    (killAllCommand s []).2.signals = s.signals + s.pids.val := by
  exact ⟨rfl, rfl, rfl⟩

/-- C8: the tokenizer splits on single space characters (a single space
after a space-free fragment ends that token), two consecutive spaces
yield an empty token that is not filtered out, the empty input line
produces no tokens, and the read-eval loop skips an empty line without
dispatching any command or changing the state. -/
theorem tokenizer_splits_on_spaces :
    (∀ pre post : List Char, (∀ c ∈ pre, c ≠ ' ') → post ≠ [] →
      splitStringBySpace (String.mk (pre ++ ' ' :: post)) =
        String.mk pre :: splitStringBySpace (String.mk post)) ∧
    (∀ pre post : List Char, (∀ c ∈ pre, c ≠ ' ') → post ≠ [] →
      splitStringBySpace (String.mk (pre ++ ' ' :: ' ' :: post)) =
        String.mk pre :: "" :: splitStringBySpace (String.mk post)) ∧
    splitStringBySpace "" = [] ∧
    (∀ (sys : Sys) (s : ShellState),
      processLine sys s "" = some (LineResult.skipped, s)) := by
  refine ⟨?_, ?_, rfl, fun sys s => rfl⟩
  · intro pre post hpre hpost
    rw [splitStringBySpace_mk _ (by simp), sssAux_no_space pre (' ' :: post) [] hpre,
      List.nil_append, sssAux_cons_space post pre hpost,
      splitStringBySpace_mk post hpost]
  · intro pre post hpre hpost
    rw [splitStringBySpace_mk _ (by simp), sssAux_no_space pre (' ' :: ' ' :: post) [] hpre,
      List.nil_append, sssAux_cons_space (' ' :: post) pre (by simp),
      sssAux_cons_space post [] hpost, splitStringBySpace_mk post hpost]

/-- C8 witness: `a  b` (two consecutive spaces) tokenizes with an empty
middle token. -/
theorem tokenizer_splits_on_spaces_witness :
    splitStringBySpace (String.mk (['a'] ++ ' ' :: ' ' :: ['b'])) =
      String.mk ['a'] :: "" :: splitStringBySpace (String.mk ['b']) :=
  tokenizer_splits_on_spaces.2.1 ['a'] ['b'] (by decide) (by decide)

/-- C9: when forks succeed, any fallthrough token stream that begins
with `"&&"`, ends with `"&&"`, or contains two consecutive `"&&"`
tokens makes the orchestrator invoke the Process Launcher with the
empty token sequence (an empty launch request appears on the trace);
the argument vector built from the empty token sequence has the null
pointer at position 0 as its program name. -/
theorem empty_group_launched (sys : Sys) (s : ShellState) (tokens : List String)
    (hfork : ∀ n, (sys.fork n).isSome)
    (hshape : (∃ rest, tokens = "&&" :: rest) ∨
      (∃ a, tokens = a ++ ["&&"]) ∨
      (∃ a rest, tokens = a ++ "&&" :: "&&" :: rest)) :
    ([], (0 : ℤ)) ∈ (createProcesses sys tokens s).2.launches ∧
    (tokensToArgv []).get? 0 = some none := by
  refine ⟨?_, rfl⟩
  have hmem : [] ∈ splitGroups tokens := by
    rcases hshape with ⟨rest, rfl⟩ | ⟨a, rfl⟩ | ⟨a, rest, rfl⟩
    · rw [splitGroups_cons_sep]
      exact List.mem_cons_self [] _
    · refine List.mem_of_mem_tail (nil_mem_splitGroups_tail a [] ?_)
      simp [splitGroups]
    · refine List.mem_of_mem_tail (nil_mem_splitGroups_tail a ("&&" :: rest) ?_)
      rw [splitGroups_cons_sep]
      exact List.mem_cons_self [] _
  rw [createProcesses_eq, launchGroups_launches sys hfork]
  exact List.mem_append_right _ (List.mem_map_of_mem (fun g => (g, (0 : ℤ))) hmem)

/-- C9 witness: the stream `["&&"]` (begins and ends with the
separator) produces an empty launch request. -/
theorem empty_group_launched_witness :
    ([], (0 : ℤ)) ∈ (createProcesses sysOk ["&&"] initState).2.launches :=
  (empty_group_launched sysOk initState ["&&"] (fun _ => rfl)
    (Or.inl ⟨[], rfl⟩)).1

/-- C10: tokenizing any non-empty input line yields at least one token
— possibly the empty string, as for a line consisting only of spaces —
so the dispatcher's unconditional read of the first token is in
bounds. -/
theorem tokens_nonempty (line : String) (h : line ≠ "") :
    splitStringBySpace line ≠ [] ∧
    ∃ (c : String) (args : List String), splitStringBySpace line = c :: args := by
  have hne : line.toList ≠ [] := by
    intro hnil
    exact h (String.ext hnil)
  have hs : splitStringBySpace line = sssAux line.toList [] := by
    simp only [splitStringBySpace]
    rw [if_neg hne]
  constructor
  · rw [hs]; exact sssAux_ne_nil line.toList []
  · obtain ⟨c, args, hc⟩ :=
      List.exists_cons_of_ne_nil (hs ▸ sssAux_ne_nil line.toList [])
    exact ⟨c, args, hc⟩

/-- C10 witness: a line of a single space yields the empty token. -/
theorem tokens_nonempty_witness : splitStringBySpace " " ≠ [] :=
  (tokens_nonempty " " (by decide)).1

end Terminal
